import Mathlib

/-!
Verification of the rss-cli acquisition/analysis core.

This file gives a shallow embedding of the TypeScript sources:
  - src/services/proxy.ts   (ProxyManager: determineMode, fetch)
  - src/services/cache.ts   (CacheService, drizzle revision: addArticles,
    updateFeedProxyStats, updateFeedFetchTime, addOrUpdateResource,
    incrementResourceMentionCount, updateResourceDescription, getOrCreateTag,
    linkArticleTag, linkArticleResource, linkResourceTag, updateArticleAnalysis,
    saveArticleSnapshot)
  - src/services/rss.ts     (RssService: fetchFeed item mapping, updateFeed,
    updateAllFeeds)
  - src/services/llm.ts     (current revision: normalizeResourceName,
    filterArticles, summarizeAndExtractResources, summarizeArticle,
    addOrUpdateResourceWithMerge, analyzeArticles)
  - src/commands/run.ts     (needsScraping)

The SQLite storage is modelled as an explicit record of tables (lists of rows);
each statement of the source becomes a pure state transformer.  External
collaborators (HTTP, the LLM endpoint, JSON.parse of model output, the
html-to-text converter, Date parsing) are modelled as explicit oracle
parameters: the control flow around them is translated from the source.
JS string length is modelled by Lean character count (the claims only use
ASCII data, where the two agree), and SQLite datetime values by an abstract
clock `Db.time`.
-/

set_option maxRecDepth 20000

namespace RssCli

/-- The character U+007B, written via its code point. -/
def lbrace : Char := Char.ofNat 123

/-- The character U+007D, written via its code point. -/
def rbrace : Char := Char.ofNat 125

/-- JS truthiness of a nullable string: `null`/`undefined` and `""` are falsy. -/
def truthy : Option String → Bool
  | none => false
  | some s => !s.isEmpty

/-- JS `a || b` on nullable strings (first operand if truthy, else second). -/
def jsOr (a b : Option String) : Option String :=
  if truthy a then a else b

/-- JS `a || d` where the fallback `d` is a plain string. -/
def jsOrStr (a : Option String) (d : String) : String :=
  if truthy a then a.getD "" else d

/-- JS nullish coalescing `a ?? b` (keeps an empty string, unlike `||`). -/
def nullishOr {α : Type} (a b : Option α) : Option α :=
  match a with
  | some x => some x
  | none => b

/-- Character-level lowercasing (JS toLowerCase on these ASCII inputs). -/
def strToLower (s : String) : String := String.mk (s.data.map Char.toLower)

/-- Whether `s` ends with `target` (character-wise). -/
def strEndsWith (s target : String) : Bool := List.isSuffixOf target.data s.data

/-- Drop the last `n` characters of `s`. -/
def strDropRight (s : String) (n : Nat) : String :=
  String.mk (s.data.take (s.data.length - n))

/-- JS String.prototype.trim: strip whitespace from both ends. -/
def jsTrim (s : String) : String :=
  String.mk (((s.data.dropWhile Char.isWhitespace).reverse.dropWhile
    Char.isWhitespace).reverse)

/-- Feed fetch-mode preference (`proxy_mode` column). -/
inductive ProxyPref
  | auto
  | direct
  | proxy
deriving DecidableEq, Repr

/-- Concrete mode used for one HTTP attempt. -/
inductive Mode
  | direct
  | proxy
deriving DecidableEq, Repr

/-- A row of the `feeds` table (snake_case shape of models/feed.ts). -/
structure Feed where
  id : Nat
  name : String
  url : String
  proxy_mode : ProxyPref
  proxy_success_count : Nat
  direct_success_count : Nat
  last_fetched_at : Option Nat
deriving DecidableEq, Repr

/-- A row of the `articles` table (models/article.ts).  `is_interesting` is the
tri-state column (NULL / 0 / 1); `analyzed_at` and `snapshot_at` are datetimes
modelled by the abstract clock. -/
structure Article where
  id : Nat
  feed_id : Nat
  guid : String
  title : String
  link : Option String
  content : Option String
  pub_date : Option String
  is_read : Nat
  is_interesting : Option Nat
  interest_reason : Option String
  summary : Option String
  analyzed_at : Option Nat
  text_snapshot : Option String
  snapshot_at : Option Nat
deriving DecidableEq, Repr

/-- Insert shape for `articles` (models/article.ts ArticleInput). -/
structure ArticleInput where
  feed_id : Nat
  guid : String
  title : String
  link : Option String
  content : Option String
  pub_date : Option String
deriving DecidableEq, Repr

/-- A row of the `resources` table.  `mention_count` has SQL default 1. -/
structure ResourceRow where
  id : Nat
  name : String
  type : String
  url : Option String
  github_url : Option String
  description : Option String
  tags : Option String
  mention_count : Nat
deriving DecidableEq, Repr

/-- Insert shape for resources (models/resource.ts ResourceInput). -/
structure ResourceInput where
  name : String
  type : String
  url : Option String
  github_url : Option String
  description : Option String
  tags : Option (List String)
deriving DecidableEq, Repr

/-- A row of the `tags` table. -/
structure TagRow where
  id : Nat
  name : String
  category : Option String
deriving DecidableEq, Repr

/-- A row of the `article_resources` join table (UNIQUE(article_id, resource_id)). -/
structure ArticleResourceRow where
  article_id : Nat
  resource_id : Nat
  context : Option String
  relevance : String
deriving DecidableEq, Repr

/-- Insert shape for article_resources; `relevance` defaults to "mentioned". -/
structure ArticleResourceInput where
  article_id : Nat
  resource_id : Nat
  context : Option String
  relevance : Option String
deriving DecidableEq, Repr

/-- A row of the `article_tags` join table (UNIQUE(article_id, tag_id)).
`confidence` is a REAL that is 1.0 at every call site; it is modelled as a Nat. -/
structure ArticleTagRow where
  article_id : Nat
  tag_id : Nat
  source : String
  confidence : Nat
deriving DecidableEq, Repr

/-- A row of the `resource_tags` join table (UNIQUE(resource_id, tag_id)). -/
structure ResourceTagRow where
  resource_id : Nat
  tag_id : Nat
deriving DecidableEq, Repr

/-- The SQLite database state: one list per table, autoincrement counters and
an abstract clock standing for `datetime('now')`.  `feeds` is kept in id order
(getAllFeeds orders by id). -/
structure Db where
  feeds : List Feed
  articles : List Article
  resources : List ResourceRow
  tags : List TagRow
  articleResources : List ArticleResourceRow
  articleTags : List ArticleTagRow
  resourceTags : List ResourceTagRow
  nextArticleId : Nat
  nextResourceId : Nat
  nextTagId : Nat
  time : Nat
deriving DecidableEq, Repr

/-! ### CacheService: feed operations -/

/-- CacheService.getFeedById. -/
def getFeedById (db : Db) (id : Nat) : Option Feed :=
  db.feeds.find? (fun f => f.id == id)

/-- CacheService.updateFeedProxyStats: on success, increment the success
counter of the mode used; a failed attempt records nothing. -/
def updateFeedProxyStats (db : Db) (feedId : Nat) (mode : Mode) (success : Bool) : Db :=
  if !success then db
  else
    match mode with
    | Mode.direct =>
        { db with feeds := db.feeds.map (fun f =>
            if f.id == feedId then { f with direct_success_count := f.direct_success_count + 1 } else f) }
    | Mode.proxy =>
        { db with feeds := db.feeds.map (fun f =>
            if f.id == feedId then { f with proxy_success_count := f.proxy_success_count + 1 } else f) }

/-- CacheService.updateFeedFetchTime: set last_fetched_at to now. -/
def updateFeedFetchTime (db : Db) (feedId : Nat) : Db :=
  { db with feeds := db.feeds.map (fun f =>
      if f.id == feedId then { f with last_fetched_at := some db.time } else f) }

/-! ### ProxyManager -/

/-- ProxyManager.determineMode: manual override for `direct`/`proxy`; in auto
mode, no history prefers direct, otherwise the higher success count wins and
ties go to direct (`directRate >= proxyRate ? 'direct' : 'proxy'`). -/
def determineMode (feed : Feed) : Mode :=
  if feed.proxy_mode = ProxyPref.direct then Mode.direct
  else if feed.proxy_mode = ProxyPref.proxy then Mode.proxy
  else
    let directRate := feed.direct_success_count
    let proxyRate := feed.proxy_success_count
    if directRate = 0 ∧ proxyRate = 0 then Mode.direct
    else if directRate ≥ proxyRate then Mode.direct
    else Mode.proxy

/-- The alternative mode tried on failure (`mode === 'direct' ? 'proxy' : 'direct'`). -/
def otherMode : Mode → Mode
  | Mode.direct => Mode.proxy
  | Mode.proxy => Mode.direct

/-- ProxyManager.fetch for a feed-scoped URL.  The two HTTP attempts are
modelled by the oracle `attemptOk` (whether `doFetch` succeeds in a mode) and
`attemptErr` (the error message `doFetch` throws in a mode); `proxyConfigured`
is the truthiness of the configured proxy endpoint.  On a successful attempt
the per-feed stats are updated; on a first failure the other mode is tried
only if it is direct or a proxy is configured, and a second failure raises
the both-failed error naming the URL. -/
def pmFetch (db : Db) (proxyConfigured : Bool) (attemptOk : Mode → Bool)
    (attemptErr : Mode → String) (url : String) (feedId : Nat) : Db × Except String Mode :=
  match getFeedById db feedId with
  | none => (db, Except.error ("Feed with id " ++ toString feedId ++ " not found"))
  | some feed =>
      let mode := determineMode feed
      if attemptOk mode then
        (updateFeedProxyStats db feedId mode true, Except.ok mode)
      else
        let altMode := otherMode mode
        if altMode = Mode.direct ∨ proxyConfigured = true then
          if attemptOk altMode then
            (updateFeedProxyStats db feedId altMode true, Except.ok altMode)
          else
            (db, Except.error ("Both direct and proxy connections failed for " ++ url))
        else
          (db, Except.error (attemptErr mode))

/-! ### CacheService: article operations -/

/-- Whether a row with the dedup key (feed_id, guid) is already stored. -/
def pairStored (db : Db) (feedId : Nat) (guid : String) : Bool :=
  db.articles.any (fun a => a.feed_id == feedId && a.guid == guid)

/-- One `INSERT INTO articles` with the schema defaults for the remaining
columns (is_read 0, analysis columns NULL). -/
def insertArticleRow (db : Db) (inp : ArticleInput) : Db :=
  { db with
    articles := db.articles ++
      [{ id := db.nextArticleId, feed_id := inp.feed_id, guid := inp.guid,
         title := inp.title, link := inp.link, content := inp.content,
         pub_date := inp.pub_date, is_read := 0, is_interesting := none,
         interest_reason := none, summary := none, analyzed_at := none,
         text_snapshot := none, snapshot_at := none }],
    nextArticleId := db.nextArticleId + 1 }

/-- CacheService.addArticles: one transaction of `INSERT OR IGNORE` statements
keyed on UNIQUE(feed_id, guid), counting the rows actually inserted. -/
def addArticles (db : Db) : List ArticleInput → Db × Nat
  | [] => (db, 0)
  | inp :: rest =>
      if pairStored db inp.feed_id inp.guid then addArticles db rest
      else
        let r := addArticles (insertArticleRow db inp) rest
        (r.1, r.2 + 1)

/-- CacheService.updateArticleAnalysis: write the filter verdict, reason,
optional summary and the analyzed_at timestamp. -/
def updateArticleAnalysis (db : Db) (articleId : Nat) (isInteresting : Bool)
    (reason : String) (summary : Option String) : Db :=
  { db with articles := db.articles.map (fun a =>
      if a.id == articleId then
        { a with is_interesting := some (if isInteresting then 1 else 0),
                 interest_reason := some reason, summary := summary,
                 analyzed_at := some db.time }
      else a) }

/-- CacheService.saveArticleSnapshot. -/
def saveArticleSnapshot (db : Db) (articleId : Nat) (textContent : String) : Db :=
  { db with articles := db.articles.map (fun a =>
      if a.id == articleId then
        { a with text_snapshot := some textContent, snapshot_at := some db.time }
      else a) }

/-! ### RssService -/

/-- One parsed entry as rss-parser hands it over (all fields may be absent). -/
structure RawItem where
  guid : Option String
  link : Option String
  title : Option String
  contentEncoded : Option String
  content : Option String
  contentSnippet : Option String
  pubDate : Option String
  isoDate : Option String
deriving DecidableEq, Repr

/-- A normalized entry (rss.ts RssItem). -/
structure RssItem where
  guid : String
  title : String
  link : Option String
  content : Option String
  pubDate : Option String
deriving DecidableEq, Repr

/-- The item normalization of RssService.fetchFeed: guid falls back
guid → link → title → "", title falls back to "Untitled", content falls back
contentEncoded → content → contentSnippet → "", pubDate falls back to isoDate. -/
def toRssItem (it : RawItem) : RssItem :=
  { guid := jsOrStr it.guid (jsOrStr it.link (jsOrStr it.title "")),
    title := jsOrStr it.title "Untitled",
    link := it.link,
    content := some (jsOrStr it.contentEncoded (jsOrStr it.content (jsOrStr it.contentSnippet ""))),
    pubDate := jsOr it.pubDate it.isoDate }

/-- RssService.updateFeed on an already fetched and parsed item list: map the
entries to article inputs (`toIso` models `new Date(d).toISOString()`),
bulk-insert them, then always update last_fetched_at; the insert count is
returned. -/
def updateFeed (toIso : String → String) (db : Db) (feed : Feed)
    (items : List RssItem) : Db × Nat :=
  let inputs : List ArticleInput := items.map (fun item =>
    { feed_id := feed.id, guid := item.guid, title := item.title,
      link := item.link, content := item.content,
      pub_date := if truthy item.pubDate then some (toIso (item.pubDate.getD "")) else none })
  let r := addArticles db inputs
  (updateFeedFetchTime r.1 feed.id, r.2)

/-- Result entry of updateAllFeeds for one feed name. -/
structure UpdateEntry where
  newCount : Nat
  error : Option String
deriving DecidableEq, Repr

/-- JS `Map.set`: overwrite the entry in place if the key exists, else append. -/
def mapSet (m : List (String × UpdateEntry)) (k : String) (v : UpdateEntry) :
    List (String × UpdateEntry) :=
  if m.any (fun p => p.1 == k) then
    m.map (fun p => if p.1 == k then (k, v) else p)
  else m ++ [(k, v)]

/-- JS `Map.get`. -/
def mapGet (m : List (String × UpdateEntry)) (k : String) : Option UpdateEntry :=
  (m.find? (fun p => p.1 == k)).map (fun p => p.2)

/-- The loop body of RssService.updateAllFeeds: run updateFeed inside
try/catch, record a normal entry on success and a zero-count entry carrying
the error message on failure. -/
def processFeedStep (toIso : String → String)
    (fetchOutcome : Feed → Except String (List RssItem))
    (acc : Db × List (String × UpdateEntry)) (feed : Feed) :
    Db × List (String × UpdateEntry) :=
  match fetchOutcome feed with
  | Except.ok items =>
      let r := updateFeed toIso acc.1 feed items
      (r.1, mapSet acc.2 feed.name { newCount := r.2, error := none })
  | Except.error e =>
      (acc.1, mapSet acc.2 feed.name { newCount := 0, error := some e })

/-- RssService.updateAllFeeds: iterate the selected feeds sequentially; a
throwing updateFeed (fetch/parse failure, modelled by `fetchOutcome`) is caught
and recorded as a zero-count entry with the error message, without stopping
the iteration. -/
def updateAllFeeds (toIso : String → String)
    (fetchOutcome : Feed → Except String (List RssItem)) (db : Db)
    (feedId : Option Nat) : Db × List (String × UpdateEntry) :=
  let feeds : List Feed :=
    match feedId with
    | some fid =>
        match getFeedById db fid with
        | some f => [f]
        | none => []
    | none => db.feeds
  feeds.foldl (processFeedStep toIso fetchOutcome) (db, [])

/-! ### run.ts: needsScraping -/

/-- run.ts needsScraping: skip when an existing snapshot is longer than 200
characters, skip when the article has no usable link, otherwise scrape. -/
def needsScraping (article : Article) : Bool :=
  if truthy article.text_snapshot = true ∧ 200 < (article.text_snapshot.getD "").length then
    false
  else if truthy article.link = false then
    false
  else
    true

/-- The scrape-threshold predicate as the spec words it (used to compare with
the implementation): snapshot absent or shorter than the minimum usable
length of about 200 characters. -/
def claimedNeedsScraping (article : Article) : Bool :=
  !truthy article.text_snapshot || decide ((article.text_snapshot.getD "").length < 200)

/-! ### CacheService: resource and tag operations (drizzle revision) -/

/-- CacheService.getResourceByNameAndType: lookup on the UNIQUE(name, type) key. -/
def getResourceByNameAndType (db : Db) (name ty : String) : Option ResourceRow :=
  db.resources.find? (fun r => r.name == name && r.type == ty)

/-- CacheService.getResourceById. -/
def getResourceById (db : Db) (id : Nat) : Option ResourceRow :=
  db.resources.find? (fun r => r.id == id)

/-- CacheService.addOrUpdateResource: if a row with the same (name, type)
exists, bump its mention_count and coalesce the other fields from the input;
otherwise insert a fresh row (mention_count defaults to 1).  Returns the
stored row. -/
def addOrUpdateResource (db : Db) (input : ResourceInput) : Db × ResourceRow :=
  let tagsStr : Option String := input.tags.map (fun ts => String.intercalate "," ts)
  match getResourceByNameAndType db input.name input.type with
  | some existing =>
      let updated : ResourceRow :=
        { existing with
          mention_count := existing.mention_count + 1,
          url := nullishOr input.url existing.url,
          github_url := nullishOr input.github_url existing.github_url,
          description := nullishOr input.description existing.description,
          tags := nullishOr tagsStr existing.tags }
      ({ db with resources := db.resources.map (fun r => if r.id == existing.id then updated else r) },
       updated)
  | none =>
      let row : ResourceRow :=
        { id := db.nextResourceId, name := input.name, type := input.type,
          url := input.url, github_url := input.github_url,
          description := input.description, tags := tagsStr, mention_count := 1 }
      ({ db with resources := db.resources ++ [row], nextResourceId := db.nextResourceId + 1 },
       row)

/-- CacheService.updateResourceDescription. -/
def updateResourceDescription (db : Db) (id : Nat) (description : String) : Db :=
  { db with resources := db.resources.map (fun r =>
      if r.id == id then { r with description := some description } else r) }

/-- CacheService.incrementResourceMentionCount. -/
def incrementResourceMentionCount (db : Db) (id : Nat) : Db :=
  { db with resources := db.resources.map (fun r =>
      if r.id == id then { r with mention_count := r.mention_count + 1 } else r) }

/-- CacheService.linkArticleResource: insert-or-ignore on the
UNIQUE(article_id, resource_id) pair; relevance defaults to "mentioned". -/
def linkArticleResource (db : Db) (input : ArticleResourceInput) : Db × Bool :=
  if db.articleResources.any (fun r =>
      r.article_id == input.article_id && r.resource_id == input.resource_id) then
    (db, false)
  else
    ({ db with articleResources := db.articleResources ++
        [{ article_id := input.article_id, resource_id := input.resource_id,
           context := input.context, relevance := input.relevance.getD "mentioned" }] },
     true)

/-- CacheService.getOrCreateTag: names are lowercased and trimmed before the
unique-name lookup; a missing tag is inserted. -/
def getOrCreateTag (db : Db) (name : String) (category : Option String) : Db × TagRow :=
  let normalizedName := jsTrim (strToLower name)
  match db.tags.find? (fun t => t.name == normalizedName) with
  | some t => (db, t)
  | none =>
      let t : TagRow := { id := db.nextTagId, name := normalizedName, category := category }
      ({ db with tags := db.tags ++ [t], nextTagId := db.nextTagId + 1 }, t)

/-- CacheService.linkArticleTag: insert-or-ignore on UNIQUE(article_id, tag_id). -/
def linkArticleTag (db : Db) (articleId tagId : Nat) (source : String) : Db × Bool :=
  if db.articleTags.any (fun r => r.article_id == articleId && r.tag_id == tagId) then
    (db, false)
  else
    ({ db with articleTags := db.articleTags ++
        [{ article_id := articleId, tag_id := tagId, source := source, confidence := 1 }] },
     true)

/-- CacheService.linkResourceTag: insert-or-ignore on UNIQUE(resource_id, tag_id). -/
def linkResourceTag (db : Db) (resourceId tagId : Nat) : Db × Bool :=
  if db.resourceTags.any (fun r => r.resource_id == resourceId && r.tag_id == tagId) then
    (db, false)
  else
    ({ db with resourceTags := db.resourceTags ++
        [{ resource_id := resourceId, tag_id := tagId }] },
     true)

/-! ### llm.ts: resource-name normalization -/

/-- JS `\w` (ASCII word character). -/
def isWordChar (c : Char) : Bool := c.isAlphanum || c == '_'

/-- JS `\s` as used on these inputs. -/
def isSpaceChar (c : Char) : Bool := c.isWhitespace

/-- Drop trailing whitespace of a string. -/
def trimRightWs (s : String) : String :=
  String.mk ((s.data.reverse.dropWhile isSpaceChar).reverse)

/-- One company-suffix pattern of normalizeResourceName: replacing
a final case-insensitive "(Company)" together with the whitespace run in
front of it (the match of the anchored greedy regex). -/
def stripParenCompany (company : String) (s : String) : String :=
  let target := "(" ++ strToLower company ++ ")"
  if strEndsWith (strToLower s) target then trimRightWs (strDropRight s target.length)
  else s

/-- The final pattern of normalizeResourceName, a by-company suffix: a
trailing word, at least one whitespace, a case-insensitive "by" directly
before it, and the whitespace run in front of "by" are all removed when the
string has that shape. -/
def stripByCompany (s : String) : String :=
  let rev := s.data.reverse
  let w := rev.takeWhile isWordChar
  let rest1 := rev.drop w.length
  let sp := rest1.takeWhile isSpaceChar
  let rest2 := rest1.drop sp.length
  match w, sp, rest2 with
  | _ :: _, _ :: _, y :: b :: rest3 =>
      if y.toLower == 'y' && b.toLower == 'b' then
        String.mk ((rest3.dropWhile isSpaceChar).reverse)
      else s
  | _, _, _ => s

/-- The company names whose parenthesised suffixes are stripped, in the order
the source lists the patterns. -/
def companySuffixes : List String :=
  ["Anthropic", "Google", "OpenAI", "Microsoft", "Meta", "Facebook", "Amazon",
   "Apple", "Netflix", "Vercel", "GitHub"]

/-- llm.ts normalizeResourceName: trim, apply each suffix pattern in order,
trim again. -/
def normalizeResourceName (name : String) : String :=
  let start := jsTrim name
  let afterParens := companySuffixes.foldl (fun acc c => stripParenCompany c acc) start
  jsTrim (stripByCompany afterParens)

/-! ### llm.ts: JSON extraction and the two-phase analyzer -/

/-- The JS match of the greedy brace regex over a model response: the
substring from the first opening brace through the last closing brace, when
a closing brace follows the first opening one; otherwise no match. -/
def extractJsonObject (s : String) : Option String :=
  let cs := s.data
  match cs.findIdx? (fun c => c == lbrace) with
  | none => none
  | some i =>
      match cs.reverse.findIdx? (fun c => c == rbrace) with
      | none => none
      | some rj =>
          let j := cs.length - 1 - rj
          if i < j then some (String.mk ((cs.drop i).take (j - i + 1))) else none

/-- One entry of the parsed filter-phase JSON (`results` array). -/
structure RawFilterItem where
  id : Nat
  interesting : Bool
  reason : String
  isNewsletter : Option Bool
deriving DecidableEq, Repr

/-- A filter result as returned by LlmService.filterArticles. -/
structure FilterOut where
  articleId : Nat
  isInteresting : Bool
  reason : String
  isNewsletter : Option Bool
deriving DecidableEq, Repr

/-- LlmService.filterArticles, given the chat outcome for the whole batch and
the JSON.parse oracle: an empty batch skips the model call; a transport error
propagates; a response without an extractable, parseable JSON body is a hard
failure for the whole batch. -/
def filterArticles (filterChat : Except String String)
    (parseFilter : String → Option (List RawFilterItem))
    (articles : List Article) : Except String (List FilterOut) :=
  if articles.isEmpty then Except.ok []
  else
    match filterChat with
    | Except.error e => Except.error e
    | Except.ok content =>
        match extractJsonObject content with
        | none => Except.error "Failed to parse LLM response: No JSON found in response"
        | some js =>
            match parseFilter js with
            | none => Except.error "Failed to parse LLM response: JSON parse error"
            | some items =>
                Except.ok (items.map (fun r =>
                  { articleId := r.id, isInteresting := r.interesting,
                    reason := r.reason, isNewsletter := r.isNewsletter }))

/-- One resource object of the summarize-phase JSON. -/
structure ExtractedResource where
  name : String
  type : String
  url : Option String
  github_url : Option String
  description : Option String
  tags : Option (List String)
  relevance : String
  context : Option String
deriving DecidableEq, Repr

/-- The summarize-phase JSON as parsed (every field may be absent). -/
structure RawSummary where
  summary : Option String
  keyPoints : Option (List String)
  articleTags : Option (List String)
  resources : Option (List ExtractedResource)
deriving DecidableEq, Repr

/-- The normalized summarize payload (llm.ts SummaryWithResources). -/
structure SummaryWithResources where
  summary : String
  keyPoints : List String
  articleTags : List String
  resources : List ExtractedResource
deriving DecidableEq, Repr

/-- LlmService.summarizeAndExtractResources, given the chat outcome and the
JSON.parse oracle: a chat failure propagates, but an unparseable response is
caught and becomes a default payload with no resources. -/
def summarizeAndExtractResources (chatOut : Except String String)
    (parseSum : String → Option RawSummary) : Except String SummaryWithResources :=
  match chatOut with
  | Except.error e => Except.error e
  | Except.ok content =>
      let fallback : SummaryWithResources :=
        { summary := "无法解析摘要", keyPoints := [], articleTags := [], resources := [] }
      match extractJsonObject content with
      | none => Except.ok fallback
      | some js =>
          match parseSum js with
          | none => Except.ok fallback
          | some p =>
              Except.ok
                { summary := jsOrStr p.summary "无法生成摘要",
                  keyPoints := p.keyPoints.getD [],
                  articleTags := p.articleTags.getD [],
                  resources := p.resources.getD [] }

/-- LlmService.summarizeArticle (the simple fallback summary call). -/
def summarizeArticle (chatOut : Except String String) : Except String String :=
  match chatOut with
  | Except.error e => Except.error e
  | Except.ok content => Except.ok (if content.isEmpty then "无法生成摘要" else content)

/-- JS `s || ''` for an optional description. -/
def jsStr (a : Option String) : String := jsOrStr a ""

/-- LlmService.addOrUpdateResourceWithMerge (current revision): normalize the
name, look up the (normalized name, type) key; on a hit, merge descriptions
through the LLM when both sides are non-empty and differ (a merge failure is
swallowed), bump the mention count, then delegate to
CacheService.addOrUpdateResource with the normalized input; on a miss,
delegate directly.  `mergeChat` is the chat outcome of
mergeResourceDescriptions, whose result falls back to the existing
description when the model returns only whitespace. -/
def addOrUpdateResourceWithMerge (mergeChat : String → String → Except String String)
    (db : Db) (input : ResourceInput) : Db × ResourceRow :=
  let normalizedName := normalizeResourceName input.name
  let normalizedInput : ResourceInput := { input with name := normalizedName }
  match getResourceByNameAndType db normalizedName input.type with
  | some existing =>
      let existingDesc := jsStr existing.description
      let newDesc := jsStr input.description
      let db1 :=
        if existingDesc ≠ "" ∧ newDesc ≠ "" ∧ existingDesc ≠ newDesc then
          match mergeChat existingDesc newDesc with
          | Except.ok content =>
              let merged := if (jsTrim content).isEmpty then existingDesc else jsTrim content
              updateResourceDescription db existing.id merged
          | Except.error _ => db
        else db
      let db2 := incrementResourceMentionCount db1 existing.id
      addOrUpdateResource db2 normalizedInput
  | none => addOrUpdateResource db normalizedInput

/-- The resource-tag inner loop of analyzeArticles: each tag of a saved
resource is looked up or created with category "tech" and linked. -/
def saveResourceTags (db : Db) (resourceId : Nat) : List String → Db
  | [] => db
  | t :: ts =>
      let r := getOrCreateTag db t (some "tech")
      saveResourceTags (linkResourceTag r.1 resourceId r.2.id).1 resourceId ts

/-- The article-tag loop of analyzeArticles: each article tag is looked up or
created with category "topic" and linked with source "llm". -/
def saveArticleTags (db : Db) (articleId : Nat) : List String → Db
  | [] => db
  | t :: ts =>
      let r := getOrCreateTag db t (some "topic")
      saveArticleTags (linkArticleTag r.1 articleId r.2.id "llm").1 articleId ts

/-- The guarded tag step of the persistence loop: the resource tags are
saved only when present and non-empty (`res.tags && res.tags.length > 0`). -/
def resourceTagStep (db : Db) (resourceId : Nat) (tags : Option (List String)) : Db :=
  match tags with
  | some ts => if ts ≠ [] then saveResourceTags db resourceId ts else db
  | none => db

/-- The resource-persistence loop of analyzeArticles (current revision):
resources whose relevance is not "main" are skipped; a "main" resource is
merged into the resources table, linked to the article, and its tags saved. -/
def saveResources (mergeChat : String → String → Except String String)
    (db : Db) (articleId : Nat) : List ExtractedResource → Db
  | [] => db
  | res :: rest =>
      if res.relevance ≠ "main" then saveResources mergeChat db articleId rest
      else
        let r1 := addOrUpdateResourceWithMerge mergeChat db
          { name := res.name, type := res.type, url := res.url,
            github_url := res.github_url, description := res.description,
            tags := res.tags }
        let db2 := (linkArticleResource r1.1
          { article_id := articleId, resource_id := r1.2.id,
            context := res.context, relevance := some res.relevance }).1
        saveResources mergeChat (resourceTagStep db2 r1.2.id res.tags) articleId rest

/-- The external collaborators of one analyzeArticles call: the html-to-text
converter, the filter-phase chat outcome and JSON.parse oracle, the
per-article summarize chat outcomes (keyed by article id) and their
JSON.parse oracle, the per-article fallback-summary chat outcomes, and the
description-merge chat outcomes. -/
structure LlmOracles where
  htmlToText : String → String
  filterChat : Except String String
  parseFilter : String → Option (List RawFilterItem)
  sumChat : Nat → Except String String
  parseSum : String → Option RawSummary
  fallbackChat : Nat → Except String String
  mergeChat : String → String → Except String String

/-- The snapshot-population prologue of analyzeArticles: every article with
no truthy snapshot but truthy content gets an html-to-text snapshot saved to
the database and written into the in-memory list. -/
def prepSnapshots (htmlToText : String → String) : Db → List Article → Db × List Article
  | db, [] => (db, [])
  | db, a :: rest =>
      if truthy a.text_snapshot = false ∧ truthy a.content = true then
        let plain := htmlToText (a.content.getD "")
        let r := prepSnapshots htmlToText (saveArticleSnapshot db a.id plain) rest
        (r.1, { a with text_snapshot := some plain } :: r.2)
      else
        let r := prepSnapshots htmlToText db rest
        (r.1, a :: r.2)

/-- One analysis result (llm.ts AnalysisResult: the filter result spread
together with the optional summary and resources). -/
structure AnalysisResult where
  articleId : Nat
  isInteresting : Bool
  reason : String
  isNewsletter : Option Bool
  summary : Option String
  resources : Option (List ExtractedResource)
deriving DecidableEq, Repr

/-- The per-filter-result body of the analyzeArticles loop, for a filter
entry whose article was found: when a summary is wanted and the article is
interesting, run the summarize call; on success persist tags and (main-only)
resources and record the summary; on failure fall back to the simple summary
call, and if that fails too the result simply has no summary.  In every case
the filter verdict is written through updateArticleAnalysis. -/
def analyzeOne (o : LlmOracles) (withSummary : Bool) (db : Db) (filt : FilterOut)
    (article : Article) : Db × AnalysisResult :=
  if withSummary = true ∧ filt.isInteresting = true then
    match summarizeAndExtractResources (o.sumChat article.id) o.parseSum with
    | Except.ok result =>
        let db1 := if result.articleTags ≠ [] then saveArticleTags db article.id result.articleTags else db
        let db2 := saveResources o.mergeChat db1 article.id result.resources
        (updateArticleAnalysis db2 filt.articleId filt.isInteresting filt.reason (some result.summary),
         { articleId := filt.articleId, isInteresting := filt.isInteresting,
           reason := filt.reason, isNewsletter := filt.isNewsletter,
           summary := some result.summary, resources := some result.resources })
    | Except.error _ =>
        match summarizeArticle (o.fallbackChat article.id) with
        | Except.ok s =>
            (updateArticleAnalysis db filt.articleId filt.isInteresting filt.reason (some s),
             { articleId := filt.articleId, isInteresting := filt.isInteresting,
               reason := filt.reason, isNewsletter := filt.isNewsletter,
               summary := some s, resources := none })
        | Except.error _ =>
            (updateArticleAnalysis db filt.articleId filt.isInteresting filt.reason none,
             { articleId := filt.articleId, isInteresting := filt.isInteresting,
               reason := filt.reason, isNewsletter := filt.isNewsletter,
               summary := none, resources := none })
  else
    (updateArticleAnalysis db filt.articleId filt.isInteresting filt.reason none,
     { articleId := filt.articleId, isInteresting := filt.isInteresting,
       reason := filt.reason, isNewsletter := filt.isNewsletter,
       summary := none, resources := none })

/-- The main loop of analyzeArticles: iterate the filter results, skip an
entry whose id matches no in-memory article, otherwise process it and push
exactly one result. -/
def analyzeLoop (o : LlmOracles) (withSummary : Bool) (arts : List Article) :
    Db → List FilterOut → Db × List AnalysisResult
  | db, [] => (db, [])
  | db, filt :: rest =>
      match arts.find? (fun a => a.id == filt.articleId) with
      | none => analyzeLoop o withSummary arts db rest
      | some article =>
          let r1 := analyzeOne o withSummary db filt article
          let r := analyzeLoop o withSummary arts r1.1 rest
          (r.1, r1.2 :: r.2)

/-- LlmService.analyzeArticles (current revision): populate missing text
snapshots, run the batch filter call (whose parse failure fails the whole
call), then process each filter result.  Progress reporting and token
accounting are pure observers and are not part of the state model. -/
def analyzeArticles (o : LlmOracles) (db : Db) (articles : List Article)
    (withSummary : Bool) : Db × Except String (List AnalysisResult) :=
  let prep := prepSnapshots o.htmlToText db articles
  match filterArticles o.filterChat o.parseFilter prep.2 with
  | Except.error e => (prep.1, Except.error e)
  | Except.ok filterResults =>
      let r := analyzeLoop o withSummary prep.2 prep.1 filterResults
      (r.1, Except.ok r.2)

/-- The analysis fields of an article row, keyed by its id: is_interesting,
interest_reason, summary and analyzed_at — the fields written exactly by
updateArticleAnalysis. -/
def analysisState (a : Article) :
    Nat × Option Nat × Option String × Option String × Option Nat :=
  (a.id, a.is_interesting, a.interest_reason, a.summary, a.analyzed_at)

/-! ### Concrete instances used by witnesses and counterexamples -/

/-- An empty database. -/
def emptyDb : Db :=
  { feeds := [], articles := [], resources := [], tags := [],
    articleResources := [], articleTags := [], resourceTags := [],
    nextArticleId := 1, nextResourceId := 1, nextTagId := 1, time := 0 }

/-- An auto-mode feed with the given success counters. -/
def autoFeed (d p : Nat) : Feed :=
  { id := 1, name := "f", url := "https://x.test/rss", proxy_mode := ProxyPref.auto,
    proxy_success_count := p, direct_success_count := d, last_fetched_at := none }

/-- A blank article row. -/
def articleBase : Article :=
  { id := 1, feed_id := 1, guid := "g", title := "t", link := none, content := none,
    pub_date := none, is_read := 0, is_interesting := none, interest_reason := none,
    summary := none, analyzed_at := none, text_snapshot := none, snapshot_at := none }

/-- A 150-character snapshot. -/
def snap150 : String := String.mk (List.replicate 150 'a')

/-- A 250-character snapshot. -/
def snap250 : String := String.mk (List.replicate 250 'a')

/-- A link-less article with a 150-character snapshot. -/
def articleNoLink150 : Article := { articleBase with text_snapshot := some snap150 }

/-- An article with a link and a 150-character snapshot. -/
def articleLink150 : Article :=
  { articleBase with id := 2, link := some "https://x.test/a", text_snapshot := some snap150 }

/-- An article with a link and a 250-character snapshot. -/
def articleLink250 : Article :=
  { articleBase with id := 3, link := some "https://x.test/b", text_snapshot := some snap250 }

/-- A link-less article with no snapshot at all. -/
def articleNoLinkNoSnap : Article := articleBase

/-- A one-feed database for the fetch-fallback witness. -/
def fallbackDb : Db := { emptyDb with feeds := [autoFeed 0 0] }

/-- An attempt oracle under which every HTTP attempt fails. -/
def allFail : Mode → Bool := fun _ => false

/-- Error messages of the failing attempts. -/
def attemptErrMsg : Mode → String := fun _ => "HTTP 500: boom"

/-- An article input for the dedup witness. -/
def dedupInput : ArticleInput :=
  { feed_id := 1, guid := "a1", title := "t1", link := none, content := some "", pub_date := none }

/-- The row that inserting `dedupInput` into the empty database produces. -/
def dedupRow : Article :=
  { id := 1, feed_id := 1, guid := "a1", title := "t1", link := none, content := some "",
    pub_date := none, is_read := 0, is_interesting := none, interest_reason := none,
    summary := none, analyzed_at := none, text_snapshot := none, snapshot_at := none }

/-- First feed of the duplicate-name counterexample. -/
def feedDupA : Feed :=
  { id := 1, name := "dup", url := "u1", proxy_mode := ProxyPref.auto,
    proxy_success_count := 0, direct_success_count := 0, last_fetched_at := none }

/-- Second feed of the duplicate-name counterexample. -/
def feedDupB : Feed :=
  { id := 2, name := "dup", url := "u2", proxy_mode := ProxyPref.auto,
    proxy_success_count := 0, direct_success_count := 0, last_fetched_at := none }

/-- A database holding two feeds that share the name "dup". -/
def dupDb : Db := { emptyDb with feeds := [feedDupA, feedDupB] }

/-- Fetch outcomes for the duplicate-name counterexample: the first feed's
fetch throws, the second returns one item. -/
def dupOutcome : Feed → Except String (List RssItem) := fun f =>
  if f.id == 1 then Except.error "boom"
  else Except.ok [{ guid := "g1", title := "t", link := none, content := some "", pubDate := none }]

/-- Three distinctly named feeds for the partial-failure witness. -/
def feedA : Feed :=
  { id := 1, name := "A", url := "uA", proxy_mode := ProxyPref.auto,
    proxy_success_count := 0, direct_success_count := 0, last_fetched_at := none }

/-- Second witness feed. -/
def feedB : Feed :=
  { id := 2, name := "B", url := "uB", proxy_mode := ProxyPref.auto,
    proxy_success_count := 0, direct_success_count := 0, last_fetched_at := none }

/-- Third witness feed. -/
def feedC : Feed :=
  { id := 3, name := "C", url := "uC", proxy_mode := ProxyPref.auto,
    proxy_success_count := 0, direct_success_count := 0, last_fetched_at := none }

/-- A database holding the three witness feeds. -/
def threeFeedDb : Db := { emptyDb with feeds := [feedA, feedB, feedC] }

/-- Fetch outcomes for the partial-failure witness: feed B throws, A and C
each return one item. -/
def threeFeedOutcome : Feed → Except String (List RssItem) := fun f =>
  if f.id == 2 then Except.error "network down"
  else Except.ok [{ guid := "g" ++ toString f.id, title := "t", link := none,
                    content := some "", pubDate := none }]

/-- A database holding one existing resource ("Claude", "tool") with
mention_count 1. -/
def claudeDb : Db :=
  { emptyDb with
    resources := [{ id := 1, name := "Claude", type := "tool", url := none,
                    github_url := none, description := none, tags := none,
                    mention_count := 1 }],
    nextResourceId := 2 }

/-- A re-sighting of the same resource under its unnormalized name. -/
def claudeInput : ResourceInput :=
  { name := "Claude by Anthropic", type := "tool", url := none, github_url := none,
    description := none, tags := none }

/-- The state after merging the re-sighting into `claudeDb`. -/
def claudeResult : Db × ResourceRow :=
  addOrUpdateResourceWithMerge (fun _ n => Except.ok n) claudeDb claudeInput

/-- A merge-chat oracle that always fails (unused by the relevance example). -/
def mergeUnused : String → String → Except String String := fun _ _ => Except.error "unused"

/-- A summarize response carrying one resource of each relevance. -/
def relevanceResources : List ExtractedResource :=
  [{ name := "MainTool", type := "tool", url := none, github_url := none,
     description := none, tags := none, relevance := "main", context := none },
   { name := "MentionedTool", type := "tool", url := none, github_url := none,
     description := none, tags := none, relevance := "mentioned", context := none },
   { name := "ComparedTool", type := "tool", url := none, github_url := none,
     description := none, tags := none, relevance := "compared", context := none }]

/-- Oracles for the filter-failure witness: the model responds without any
JSON object. -/
def noJsonOracles : LlmOracles :=
  { htmlToText := fun s => s, filterChat := Except.ok "I cannot help with that.",
    parseFilter := fun _ => none, sumChat := fun _ => Except.error "unused",
    parseSum := fun _ => none, fallbackChat := fun _ => Except.error "unused",
    mergeChat := fun _ _ => Except.error "unused" }

/-- A database holding one unanalyzed article. -/
def oneArticleDb : Db := { emptyDb with articles := [articleBase], nextArticleId := 2 }

/-- Oracles for the dropped-entry counterexample: the filter response parses
to an empty `results` array. -/
def emptyResultsOracles : LlmOracles :=
  { htmlToText := fun s => s,
    filterChat := Except.ok "\x7b\"results\":[]\x7d",
    parseFilter := fun _ => some [],
    sumChat := fun _ => Except.error "unused", parseSum := fun _ => none,
    fallbackChat := fun _ => Except.error "unused",
    mergeChat := fun _ _ => Except.error "unused" }

/-- Oracles for the one-result-per-entry witness: the filter response parses
to exactly one entry whose id matches the single input article. -/
def oneEntryOracles : LlmOracles :=
  { htmlToText := fun s => s,
    filterChat := Except.ok "\x7b\"results\":[...]\x7d",
    parseFilter := fun _ =>
      some [{ id := 1, interesting := false, reason := "r", isNewsletter := none }],
    sumChat := fun _ => Except.error "unused", parseSum := fun _ => none,
    fallbackChat := fun _ => Except.error "unused",
    mergeChat := fun _ _ => Except.error "unused" }

/-! ## Theorems -/

/-- C1: the Fetch-Mode Selector honors a configured `direct` or `proxy` mode
unconditionally; in `auto` mode it returns `direct` when both success
counters are zero, otherwise the mode with the higher cumulative success
count, ties going to `direct`; and on the spec's examples (3,1) gives
direct, (0,0) gives direct, (1,5) gives proxy. -/
theorem determineMode_spec :
    (∀ f : Feed, f.proxy_mode = ProxyPref.direct → determineMode f = Mode.direct) ∧
    (∀ f : Feed, f.proxy_mode = ProxyPref.proxy → determineMode f = Mode.proxy) ∧
    (∀ f : Feed, f.proxy_mode = ProxyPref.auto →
      (f.direct_success_count = 0 ∧ f.proxy_success_count = 0 →
          determineMode f = Mode.direct) ∧
      (f.proxy_success_count ≤ f.direct_success_count → determineMode f = Mode.direct) ∧
      (f.direct_success_count < f.proxy_success_count → determineMode f = Mode.proxy)) ∧
    determineMode (autoFeed 3 1) = Mode.direct ∧
    determineMode (autoFeed 0 0) = Mode.direct ∧
    determineMode (autoFeed 1 5) = Mode.proxy := by
  refine ⟨?_, ?_, ?_, by decide, by decide, by decide⟩
  · intro f h
    simp [determineMode, h]
  · intro f h
    simp [determineMode, h]
  · intro f h
    refine ⟨?_, ?_, ?_⟩ <;> intro h2 <;> simp only [determineMode, h] <;>
      split_ifs <;> first | rfl | omega | simp_all

/-- C1 witness: the spec's (3,1) example through the general auto-mode case. -/
theorem determineMode_spec_witness : determineMode (autoFeed 3 1) = Mode.direct :=
  (determineMode_spec.2.2.1 (autoFeed 3 1) rfl).2.1 (by decide)

/-- C9 counterexample: a link-less article whose snapshot has length 150 is
below the threshold, so the claimed predicate selects it, but needsScraping
does not (it also requires a link). -/
theorem needsScraping_missesLinklessArticle :
    needsScraping articleNoLink150 = false ∧
    claimedNeedsScraping articleNoLink150 = true ∧
    (articleNoLink150.text_snapshot.getD "").length = 150 := by decide

/-- C9 (amended): among articles that have a usable link, needsScraping
selects exactly those whose snapshot is absent (or empty) or at most 200
characters long; in particular a 150-character snapshot is selected and a
250-character one is not. -/
theorem needsScraping_thresholdWithLink :
    (∀ article : Article, truthy article.link = true →
      (needsScraping article = true ↔
        (truthy article.text_snapshot = false ∨
          (article.text_snapshot.getD "").length ≤ 200))) ∧
    needsScraping articleLink150 = true ∧
    needsScraping articleLink250 = false := by
  refine ⟨?_, by decide, by decide⟩
  intro article h
  constructor
  · intro hns
    by_contra hcon
    push_neg at hcon
    obtain ⟨h1, h2⟩ := hcon
    have h1x : truthy article.text_snapshot = true := by
      cases hb : truthy article.text_snapshot
      · exact absurd hb h1
      · rfl
    have hfalse : needsScraping article = false := by
      unfold needsScraping
      rw [if_pos ⟨h1x, by omega⟩]
    rw [hfalse] at hns
    cases hns
  · intro hor
    have hc1 : ¬(truthy article.text_snapshot = true ∧
        200 < (article.text_snapshot.getD "").length) := by
      rintro ⟨ht, hlen⟩
      rcases hor with h0 | h0
      · rw [ht] at h0; cases h0
      · omega
    have hc2 : ¬(truthy article.link = false) := by
      rw [h]; intro hx; cases hx
    unfold needsScraping
    rw [if_neg hc1, if_neg hc2]

/-- C9 witness: the 150-character example through the general link case. -/
theorem needsScraping_thresholdWithLink_witness : needsScraping articleLink150 = true :=
  (needsScraping_thresholdWithLink.1 articleLink150 (by decide)).2 (Or.inr (by decide))

/-- C10: an article without a usable link is never selected by needsScraping,
whatever the snapshot state, and consequently never appears in the list whose
length is added to the scrape totals. -/
theorem needsScraping_requiresLink (article : Article)
    (h : truthy article.link = false) :
    needsScraping article = false ∧
    ∀ l : List Article, article ∉ l.filter needsScraping := by
  have hfalse : needsScraping article = false := by
    unfold needsScraping
    by_cases h1 : truthy article.text_snapshot = true ∧
        200 < (article.text_snapshot.getD "").length
    · rw [if_pos h1]
    · rw [if_neg h1, if_pos h]
  refine ⟨hfalse, ?_⟩
  intro l hl
  have hmem := List.mem_filter.mp hl
  rw [hfalse] at hmem
  cases hmem.2

/-- C10 witness: a link-less article with no snapshot at all is still skipped. -/
theorem needsScraping_requiresLink_witness :
    needsScraping articleNoLinkNoSnap = false ∧
    ∀ l : List Article, articleNoLinkNoSnap ∉ l.filter needsScraping :=
  needsScraping_requiresLink articleNoLinkNoSnap (by decide)

/-- C3: when the first attempt of a feed-scoped fetch fails, the other mode
is attempted — with proxy as the alternative only when a proxy endpoint is
configured, the original error being surfaced otherwise — and when the
second attempt also fails the call fails with the both-failed error naming
the URL. -/
theorem pmFetch_fallbackSpec (db : Db) (pc : Bool) (ok : Mode → Bool)
    (errF : Mode → String) (url : String) (fid : Nat) (feed : Feed)
    (hfeed : getFeedById db fid = some feed)
    (hfail : ok (determineMode feed) = false) :
    (otherMode (determineMode feed) = Mode.proxy → pc = false →
      (pmFetch db pc ok errF url fid).2 = Except.error (errF (determineMode feed))) ∧
    ((otherMode (determineMode feed) = Mode.direct ∨ pc = true) →
      ok (otherMode (determineMode feed)) = true →
      (pmFetch db pc ok errF url fid).2 = Except.ok (otherMode (determineMode feed))) ∧
    ((otherMode (determineMode feed) = Mode.direct ∨ pc = true) →
      ok (otherMode (determineMode feed)) = false →
      (pmFetch db pc ok errF url fid).2 =
        Except.error ("Both direct and proxy connections failed for " ++ url)) := by
  have hbase : pmFetch db pc ok errF url fid =
      (if otherMode (determineMode feed) = Mode.direct ∨ pc = true then
        (if ok (otherMode (determineMode feed)) then
          (updateFeedProxyStats db fid (otherMode (determineMode feed)) true,
           Except.ok (otherMode (determineMode feed)))
         else
          (db, Except.error ("Both direct and proxy connections failed for " ++ url)))
       else (db, Except.error (errF (determineMode feed)))) := by
    unfold pmFetch
    rw [hfeed]
    simp only [hfail, Bool.false_eq_true, if_false]
  refine ⟨?_, ?_, ?_⟩
  · intro halt hpc
    rw [hbase, if_neg ?_]
    rw [halt, hpc]
    rintro (hx | hx) <;> cases hx
  · intro halt hok
    rw [hbase, if_pos halt, if_pos hok]
  · intro halt hok
    rw [hbase, if_pos halt, hok]
    simp only [Bool.false_eq_true, if_false]

/-- C3 witness: with a proxy configured and both attempts failing for the
spec's feed URL, the both-failed error is raised. -/
theorem pmFetch_fallbackSpec_witness :
    (pmFetch fallbackDb true allFail attemptErrMsg "https://x.test/rss" 1).2 =
      Except.error ("Both direct and proxy connections failed for " ++ "https://x.test/rss") :=
  (pmFetch_fallbackSpec fallbackDb true allFail attemptErrMsg "https://x.test/rss" 1
      (autoFeed 0 0) (by decide) rfl).2.2 (Or.inr rfl) rfl

/-! ### Dedup lemmas for addArticles / updateFeed -/

/-- Inserting a row appends it to the articles table. -/
lemma insertArticleRow_articles (db : Db) (inp : ArticleInput) :
    (insertArticleRow db inp).articles =
      db.articles ++
        [{ id := db.nextArticleId, feed_id := inp.feed_id, guid := inp.guid,
           title := inp.title, link := inp.link, content := inp.content,
           pub_date := inp.pub_date, is_read := 0, is_interesting := none,
           interest_reason := none, summary := none, analyzed_at := none,
           text_snapshot := none, snapshot_at := none }] := rfl

/-- A stored dedup pair survives a row insertion. -/
lemma pairStored_insert_mono (db : Db) (inp : ArticleInput) (f : Nat) (g : String)
    (h : pairStored db f g = true) :
    pairStored (insertArticleRow db inp) f g = true := by
  simp only [pairStored, insertArticleRow_articles, List.any_append, Bool.or_eq_true]
  exact Or.inl h

/-- Freshly inserting an input makes its own dedup pair stored. -/
lemma pairStored_insert_self (db : Db) (inp : ArticleInput) :
    pairStored (insertArticleRow db inp) inp.feed_id inp.guid = true := by
  simp [pairStored, insertArticleRow_articles]

/-- A stored dedup pair survives a whole bulk insert. -/
lemma pairStored_addArticles_mono :
    ∀ (inputs : List ArticleInput) (db : Db) (f : Nat) (g : String),
      pairStored db f g = true → pairStored ((addArticles db inputs).1) f g = true
  | [], _, _, _, h => h
  | inp :: rest, db, f, g, h => by
      unfold addArticles
      by_cases hp : pairStored db inp.feed_id inp.guid = true
      · rw [if_pos hp]
        exact pairStored_addArticles_mono rest db f g h
      · rw [if_neg hp]
        exact pairStored_addArticles_mono rest (insertArticleRow db inp) f g
          (pairStored_insert_mono db inp f g h)

/-- After a bulk insert, the dedup pair of every attempted input is stored. -/
lemma addArticles_pair_present :
    ∀ (inputs : List ArticleInput) (db : Db) (inp : ArticleInput),
      inp ∈ inputs → pairStored ((addArticles db inputs).1) inp.feed_id inp.guid = true := by
  intro inputs
  induction inputs with
  | nil => intro db inp h; cases h
  | cons a rest ih =>
      intro db inp h
      unfold addArticles
      rcases List.mem_cons.mp h with heq | hmem
      · subst heq
        by_cases hp : pairStored db inp.feed_id inp.guid = true
        · rw [if_pos hp]
          exact pairStored_addArticles_mono rest db inp.feed_id inp.guid hp
        · rw [if_neg hp]
          exact pairStored_addArticles_mono rest (insertArticleRow db inp)
            inp.feed_id inp.guid (pairStored_insert_self db inp)
      · by_cases hp : pairStored db a.feed_id a.guid = true
        · rw [if_pos hp]; exact ih db inp hmem
        · rw [if_neg hp]; exact ih (insertArticleRow db a) inp hmem

/-- A bulk insert whose inputs are all already stored changes nothing and
reports zero insertions. -/
lemma addArticles_noNew :
    ∀ (inputs : List ArticleInput) (db : Db),
      (∀ inp ∈ inputs, pairStored db inp.feed_id inp.guid = true) →
      addArticles db inputs = (db, 0)
  | [], _, _ => rfl
  | inp :: rest, db, h => by
      unfold addArticles
      rw [if_pos (h inp (List.mem_cons_self inp rest))]
      exact addArticles_noNew rest db (fun i hi => h i (List.mem_cons_of_mem inp hi))

/-- The returned count of a bulk insert is the number of rows that actually
entered the table. -/
lemma addArticles_len :
    ∀ (inputs : List ArticleInput) (db : Db),
      ((addArticles db inputs).1).articles.length =
        db.articles.length + (addArticles db inputs).2
  | [], _ => rfl
  | inp :: rest, db => by
      unfold addArticles
      by_cases hp : pairStored db inp.feed_id inp.guid = true
      · rw [if_pos hp]
        exact addArticles_len rest db
      · rw [if_neg hp]
        have := addArticles_len rest (insertArticleRow db inp)
        simp only [insertArticleRow_articles, List.length_append, List.length_cons,
          List.length_nil] at this
        simp only [this]
        omega

/-- Every row present after a bulk insert was either already stored or has a
dedup pair that was absent beforehand. -/
lemma addArticles_mem :
    ∀ (inputs : List ArticleInput) (db : Db) (a : Article),
      a ∈ ((addArticles db inputs).1).articles →
      a ∈ db.articles ∨ pairStored db a.feed_id a.guid = false
  | [], _, _, h => Or.inl h
  | inp :: rest, db, a, h => by
      unfold addArticles at h
      by_cases hp : pairStored db inp.feed_id inp.guid = true
      · rw [if_pos hp] at h
        exact addArticles_mem rest db a h
      · rw [if_neg hp] at h
        rcases addArticles_mem rest (insertArticleRow db inp) a h with hmem | hpair
        · rw [insertArticleRow_articles] at hmem
          rcases List.mem_append.mp hmem with hold | hnew
          · exact Or.inl hold
          · rcases List.mem_singleton.mp hnew with rfl
            right
            simpa using (Bool.eq_false_iff.mpr hp)
        · right
          cases hq : pairStored db a.feed_id a.guid
          · rfl
          · rw [pairStored_insert_mono db inp _ _ hq] at hpair
            cases hpair

/-- updateFeedFetchTime does not touch the articles table. -/
lemma updateFeedFetchTime_articles (db : Db) (fid : Nat) :
    (updateFeedFetchTime db fid).articles = db.articles := rfl

/-- pairStored only depends on the articles table, so it is untouched by
updateFeedFetchTime. -/
lemma pairStored_updateFeedFetchTime (db : Db) (fid f : Nat) (g : String) :
    pairStored (updateFeedFetchTime db fid) f g = pairStored db f g := rfl

/-- C2: addArticles inserts only inputs whose (feed_id, guid) pair is not
already stored and returns the number of rows actually inserted; running
updateFeed a second time on the same parsed feed yields zero new articles
and leaves the articles table unchanged. -/
theorem addArticles_dedupIdempotent :
    (∀ (db : Db) (inputs : List ArticleInput),
      ((addArticles db inputs).1).articles.length =
        db.articles.length + (addArticles db inputs).2) ∧
    (∀ (db : Db) (inputs : List ArticleInput) (a : Article),
      a ∈ ((addArticles db inputs).1).articles →
      a ∈ db.articles ∨ pairStored db a.feed_id a.guid = false) ∧
    (∀ (toIso : String → String) (db : Db) (feed : Feed) (items : List RssItem),
      (updateFeed toIso (updateFeed toIso db feed items).1 feed items).2 = 0 ∧
      ((updateFeed toIso (updateFeed toIso db feed items).1 feed items).1).articles =
        ((updateFeed toIso db feed items).1).articles) := by
  refine ⟨fun db inputs => addArticles_len inputs db,
          fun db inputs a => addArticles_mem inputs db a, ?_⟩
  intro toIso db feed items
  set inputs : List ArticleInput := items.map (fun item =>
    { feed_id := feed.id, guid := item.guid, title := item.title,
      link := item.link, content := item.content,
      pub_date := if truthy item.pubDate then some (toIso (item.pubDate.getD "")) else none })
    with hinputs
  have hstored : ∀ inp ∈ inputs,
      pairStored ((updateFeed toIso db feed items).1) inp.feed_id inp.guid = true := by
    intro inp hmem
    show pairStored (updateFeedFetchTime (addArticles db inputs).1 feed.id)
      inp.feed_id inp.guid = true
    rw [pairStored_updateFeedFetchTime]
    exact addArticles_pair_present inputs db inp hmem
  have hsecond : addArticles ((updateFeed toIso db feed items).1) inputs =
      ((updateFeed toIso db feed items).1, 0) :=
    addArticles_noNew inputs _ hstored
  constructor
  · show (addArticles ((updateFeed toIso db feed items).1) inputs).2 = 0
    rw [hsecond]
  · show (updateFeedFetchTime
        (addArticles ((updateFeed toIso db feed items).1) inputs).1 feed.id).articles =
      ((updateFeed toIso db feed items).1).articles
    rw [hsecond, updateFeedFetchTime_articles]

/-- C2 witness: the insert-only-new-pairs part applied to a fresh row in the
empty database. -/
theorem addArticles_dedupIdempotent_witness :
    dedupRow ∈ emptyDb.articles ∨ pairStored emptyDb dedupRow.feed_id dedupRow.guid = false :=
  addArticles_dedupIdempotent.2.1 emptyDb [dedupInput] dedupRow (by decide)

/-! ### Map and fold lemmas for updateAllFeeds -/

/-- find? on a cons whose head satisfies the predicate. -/
lemma findq_cons_true {α : Type} (a : α) (l : List α) (p : α → Bool)
    (h : p a = true) : (a :: l).find? p = some a := by
  simp [List.find?_cons, h]

/-- find? on a cons whose head fails the predicate. -/
lemma findq_cons_false {α : Type} (a : α) (l : List α) (p : α → Bool)
    (h : p a = false) : (a :: l).find? p = l.find? p := by
  simp [List.find?_cons, h]

/-- Setting a key makes it readable. -/
lemma mapGet_set_self :
    ∀ (m : List (String × UpdateEntry)) (k : String) (v : UpdateEntry),
      mapGet (mapSet m k v) k = some v := by
  have aux : ∀ (m : List (String × UpdateEntry)) (k : String) (v : UpdateEntry),
      m.any (fun p => p.1 == k) = true →
      (m.map (fun p => if p.1 == k then (k, v) else p)).find? (fun p => p.1 == k) =
        some (k, v) := by
    intro m k v h
    induction m with
    | nil => cases h
    | cons p rest ih =>
        by_cases hp : (p.1 == k) = true
        · rw [List.map_cons, if_pos hp,
            findq_cons_true (k, v) (rest.map (fun p => if p.1 == k then (k, v) else p))
              (fun p => p.1 == k) (beq_self_eq_true k)]
        · have hp2 : (p.1 == k) = false := by
            cases hpb : (p.1 == k)
            · rfl
            · exact absurd hpb hp
          rw [List.map_cons, if_neg hp,
            findq_cons_false p (rest.map (fun p => if p.1 == k then (k, v) else p))
              (fun p => p.1 == k) hp2]
          rw [List.any_cons] at h
          exact ih (by simpa [hp2] using h)
  intro m k v
  unfold mapSet mapGet
  by_cases hany : m.any (fun p => p.1 == k) = true
  · rw [if_pos hany, aux m k v hany]
    rfl
  · rw [if_neg hany]
    have hnone : ∀ (m2 : List (String × UpdateEntry)),
        m2.any (fun p => p.1 == k) = false → m2.find? (fun p => p.1 == k) = none := by
      intro m2 hm2
      induction m2 with
      | nil => rfl
      | cons p rest ih =>
          rw [List.any_cons] at hm2
          have hp : (p.1 == k) = false := by
            cases hpb : (p.1 == k)
            · rfl
            · rw [hpb] at hm2; cases hm2
          rw [findq_cons_false p rest (fun p => p.1 == k) hp]
          exact ih (by simpa [hp] using hm2)
    rw [List.find?_append, hnone m (Bool.eq_false_iff.mpr hany), Option.none_or,
      findq_cons_true (k, v) [] (fun p => p.1 == k) (beq_self_eq_true k)]
    rfl

/-- Overwriting entries of a different key is invisible to a lookup. -/
lemma findRepl_other (k k2 : String) (v : UpdateEntry) (hne : k2 ≠ k) :
    ∀ (m : List (String × UpdateEntry)),
      (m.map (fun q => if q.1 == k2 then (k2, v) else q)).find? (fun p => p.1 == k) =
        m.find? (fun p => p.1 == k) := by
  intro m
  induction m with
  | nil => rfl
  | cons p rest ih =>
      by_cases hp : (p.1 == k2) = true
      · have hk : (k2 == k) = false := beq_eq_false_iff_ne.mpr hne
        have hpk : (p.1 == k) = false := by
          have heq : p.1 = k2 := eq_of_beq hp
          rw [heq]
          exact hk
        rw [List.map_cons, if_pos hp,
          findq_cons_false (k2, v) (rest.map (fun q => if q.1 == k2 then (k2, v) else q))
            (fun p => p.1 == k) hk,
          findq_cons_false p rest (fun p => p.1 == k) hpk]
        exact ih
      · by_cases hpk : (p.1 == k) = true
        · rw [List.map_cons, if_neg hp,
            findq_cons_true p (rest.map (fun q => if q.1 == k2 then (k2, v) else q))
              (fun p => p.1 == k) hpk,
            findq_cons_true p rest (fun p => p.1 == k) hpk]
        · have hpk2 : (p.1 == k) = false := by
            cases hpb : (p.1 == k)
            · rfl
            · exact absurd hpb hpk
          rw [List.map_cons, if_neg hp,
            findq_cons_false p (rest.map (fun q => if q.1 == k2 then (k2, v) else q))
              (fun p => p.1 == k) hpk2,
            findq_cons_false p rest (fun p => p.1 == k) hpk2]
          exact ih

/-- Setting a different key does not disturb a lookup. -/
lemma mapGet_set_other (m : List (String × UpdateEntry)) (k k2 : String)
    (v : UpdateEntry) (hne : k2 ≠ k) :
    mapGet (mapSet m k2 v) k = mapGet m k := by
  unfold mapSet mapGet
  by_cases hany : m.any (fun p => p.1 == k2) = true
  · rw [if_pos hany]
    congr 1
    exact findRepl_other k k2 v hne m
  · rw [if_neg hany]
    rw [List.find?_append]
    have hsingle : ([(k2, v)] : List (String × UpdateEntry)).find? (fun p => p.1 == k) = none := by
      have hk : (k2 == k) = false := beq_eq_false_iff_ne.mpr hne
      rw [List.find?_cons_of_neg _ (by simp [hk])]
      rfl
    rw [hsingle, Option.or_none]

/-- Processing feeds whose names all differ from `k` leaves the lookup at `k`
unchanged. -/
lemma foldProcess_preserve (toIso : String → String)
    (outcome : Feed → Except String (List RssItem)) :
    ∀ (feeds : List Feed) (acc : Db × List (String × UpdateEntry)) (k : String),
      (∀ g ∈ feeds, g.name ≠ k) →
      mapGet ((feeds.foldl (processFeedStep toIso outcome) acc)).2 k = mapGet acc.2 k := by
  intro feeds
  induction feeds with
  | nil => intro acc k _; rfl
  | cons g rest ih =>
      intro acc k h
      rw [List.foldl_cons]
      have hg : g.name ≠ k := h g (List.mem_cons_self g rest)
      have hstep : mapGet (processFeedStep toIso outcome acc g).2 k = mapGet acc.2 k := by
        cases houtcome : outcome g with
        | ok items =>
            unfold processFeedStep
            rw [houtcome]
            exact mapGet_set_other acc.2 k g.name _ hg
        | error e =>
            unfold processFeedStep
            rw [houtcome]
            exact mapGet_set_other acc.2 k g.name _ hg
      rw [ih (processFeedStep toIso outcome acc g) k
        (fun f hf => h f (List.mem_cons_of_mem g hf)), hstep]

/-- A stored dedup pair survives updateFeed. -/
lemma pairStored_updateFeed_mono (toIso : String → String) (db : Db) (feed : Feed)
    (items : List RssItem) (f : Nat) (g : String) (h : pairStored db f g = true) :
    pairStored ((updateFeed toIso db feed items).1) f g = true := by
  show pairStored (updateFeedFetchTime (addArticles db _).1 feed.id) f g = true
  rw [pairStored_updateFeedFetchTime]
  exact pairStored_addArticles_mono _ db f g h

/-- A stored dedup pair survives one feed-processing step. -/
lemma pairStored_step_mono (toIso : String → String)
    (outcome : Feed → Except String (List RssItem))
    (acc : Db × List (String × UpdateEntry)) (feed : Feed) (f : Nat) (g : String)
    (h : pairStored acc.1 f g = true) :
    pairStored ((processFeedStep toIso outcome acc feed)).1 f g = true := by
  cases houtcome : outcome feed with
  | ok items =>
      unfold processFeedStep
      rw [houtcome]
      exact pairStored_updateFeed_mono toIso acc.1 feed items f g h
  | error e =>
      unfold processFeedStep
      rw [houtcome]
      exact h

/-- A stored dedup pair survives processing any list of feeds. -/
lemma pairStored_fold_mono (toIso : String → String)
    (outcome : Feed → Except String (List RssItem)) :
    ∀ (feeds : List Feed) (acc : Db × List (String × UpdateEntry)) (f : Nat) (g : String),
      pairStored acc.1 f g = true →
      pairStored ((feeds.foldl (processFeedStep toIso outcome) acc)).1 f g = true := by
  intro feeds
  induction feeds with
  | nil => intro acc f g h; exact h
  | cons a rest ih =>
      intro acc f g h
      rw [List.foldl_cons]
      exact ih (processFeedStep toIso outcome acc a) f g
        (pairStored_step_mono toIso outcome acc a f g h)

/-- updateFeed makes the dedup pair of every fetched item stored. -/
lemma updateFeed_stores (toIso : String → String) (db : Db) (feed : Feed)
    (items : List RssItem) (item : RssItem) (hmem : item ∈ items) :
    pairStored ((updateFeed toIso db feed items).1) feed.id item.guid = true := by
  show pairStored (updateFeedFetchTime (addArticles db _).1 feed.id) feed.id item.guid = true
  rw [pairStored_updateFeedFetchTime]
  exact addArticles_pair_present _ db _ (List.mem_map_of_mem _ hmem)

/-- The per-feed recording behaviour of the updateAllFeeds loop, for a feed
list with pairwise distinct names. -/
lemma foldProcess_spec (toIso : String → String)
    (outcome : Feed → Except String (List RssItem)) :
    ∀ (feeds : List Feed) (acc : Db × List (String × UpdateEntry)),
      (feeds.map Feed.name).Nodup →
      ∀ f ∈ feeds,
        (∀ e, outcome f = Except.error e →
          mapGet ((feeds.foldl (processFeedStep toIso outcome) acc)).2 f.name =
            some { newCount := 0, error := some e }) ∧
        (∀ items, outcome f = Except.ok items →
          (∃ n, mapGet ((feeds.foldl (processFeedStep toIso outcome) acc)).2 f.name =
            some { newCount := n, error := none }) ∧
          ∀ item ∈ items,
            pairStored ((feeds.foldl (processFeedStep toIso outcome) acc)).1 f.id item.guid
              = true) := by
  intro feeds
  induction feeds with
  | nil => intro acc _ f hf; cases hf
  | cons g rest ih =>
      intro acc hnodup f hf
      rw [List.map_cons] at hnodup
      have hnodup2 := List.nodup_cons.mp hnodup
      rcases List.mem_cons.mp hf with heq | hmem
      · subst heq
        have hothers : ∀ r ∈ rest, r.name ≠ f.name := by
          intro r hr hrname
          exact hnodup2.1 (hrname ▸ List.mem_map_of_mem Feed.name hr)
        have hpres : mapGet ((rest.foldl (processFeedStep toIso outcome)
            (processFeedStep toIso outcome acc f))).2 f.name =
            mapGet (processFeedStep toIso outcome acc f).2 f.name :=
          foldProcess_preserve toIso outcome rest _ f.name hothers
        constructor
        · intro e he
          rw [List.foldl_cons, hpres]
          unfold processFeedStep
          rw [he]
          exact mapGet_set_self acc.2 f.name _
        · intro items hi
          constructor
          · refine ⟨(updateFeed toIso acc.1 f items).2, ?_⟩
            rw [List.foldl_cons, hpres]
            unfold processFeedStep
            rw [hi]
            exact mapGet_set_self acc.2 f.name _
          · intro item hitem
            rw [List.foldl_cons]
            apply pairStored_fold_mono toIso outcome rest
            show pairStored ((processFeedStep toIso outcome acc f)).1 f.id item.guid = true
            unfold processFeedStep
            rw [hi]
            exact updateFeed_stores toIso acc.1 f items item hitem
      · rw [List.foldl_cons]
        exact ih (processFeedStep toIso outcome acc g) hnodup2.2 f hmem

/-- C8 counterexample: with two feeds both named "dup", the first of which
fails, the returned map holds only the second feed's successful entry — the
failing feed's error record is not retrievable, because the result map is
keyed by feed name. -/
theorem updateAllFeeds_nameCollision :
    feedDupA ∈ dupDb.feeds ∧ feedDupA.name = "dup" ∧
    dupOutcome feedDupA = Except.error "boom" ∧
    mapGet (updateAllFeeds (fun s => s) dupOutcome dupDb none).2 "dup" =
      some { newCount := 1, error := none } :=
  ⟨by decide, rfl, rfl, by decide⟩

/-- C8 (amended): provided feed names are pairwise distinct (the result map
is keyed by feed name, so a later feed with the same name overwrites the
entry), updateAllFeeds processes every feed even when some fail: a feed whose
fetch throws is recorded with newCount 0 and its error message, every feed
with a successful fetch is recorded with a normal (error-free) entry, and the
articles of successful feeds are stored regardless of other feeds' failures;
no failure escapes the loop. -/
theorem updateAllFeeds_isolation (toIso : String → String)
    (outcome : Feed → Except String (List RssItem)) (db : Db)
    (hnodup : (db.feeds.map Feed.name).Nodup) (f : Feed) (hf : f ∈ db.feeds) :
    (∀ e, outcome f = Except.error e →
      mapGet (updateAllFeeds toIso outcome db none).2 f.name =
        some { newCount := 0, error := some e }) ∧
    (∀ items, outcome f = Except.ok items →
      (∃ n, mapGet (updateAllFeeds toIso outcome db none).2 f.name =
        some { newCount := n, error := none }) ∧
      ∀ item ∈ items,
        pairStored (updateAllFeeds toIso outcome db none).1 f.id item.guid = true) :=
  foldProcess_spec toIso outcome db.feeds (db, []) hnodup f hf

/-- C8 witness: in the three-feed run where feed B's fetch throws, B's error
entry is recorded (and, via the same theorem, A and C report normal entries). -/
theorem updateAllFeeds_isolation_witness :
    mapGet (updateAllFeeds (fun s => s) threeFeedOutcome threeFeedDb none).2 feedB.name =
      some { newCount := 0, error := some "network down" } :=
  (updateAllFeeds_isolation (fun s => s) threeFeedOutcome threeFeedDb (by decide)
    feedB (by decide)).1 "network down" rfl

/-! ### Resource-persistence lemmas -/

/-- getOrCreateTag does not touch the article_resources table. -/
lemma getOrCreateTag_artRes (db : Db) (n : String) (c : Option String) :
    (getOrCreateTag db n c).1.articleResources = db.articleResources := by
  unfold getOrCreateTag
  dsimp only
  split <;> rfl

/-- linkResourceTag does not touch the article_resources table. -/
lemma linkResourceTag_artRes (db : Db) (r t : Nat) :
    (linkResourceTag db r t).1.articleResources = db.articleResources := by
  unfold linkResourceTag
  split <;> rfl

/-- saveResourceTags does not touch the article_resources table. -/
lemma saveResourceTags_artRes :
    ∀ (ts : List String) (db : Db) (rid : Nat),
      (saveResourceTags db rid ts).articleResources = db.articleResources
  | [], _, _ => rfl
  | t :: ts, db, rid => by
      unfold saveResourceTags
      rw [saveResourceTags_artRes ts _ rid, linkResourceTag_artRes, getOrCreateTag_artRes]

/-- addOrUpdateResource does not touch the article_resources table. -/
lemma addOrUpdateResource_artRes (db : Db) (input : ResourceInput) :
    (addOrUpdateResource db input).1.articleResources = db.articleResources := by
  unfold addOrUpdateResource
  dsimp only
  split <;> rfl

/-- incrementResourceMentionCount does not touch the article_resources table. -/
lemma incrementResourceMentionCount_artRes (db : Db) (id : Nat) :
    (incrementResourceMentionCount db id).articleResources = db.articleResources := rfl

/-- updateResourceDescription does not touch the article_resources table. -/
lemma updateResourceDescription_artRes (db : Db) (id : Nat) (d : String) :
    (updateResourceDescription db id d).articleResources = db.articleResources := rfl

/-- addOrUpdateResourceWithMerge does not touch the article_resources table. -/
lemma addOrUpdateResourceWithMerge_artRes
    (mergeChat : String → String → Except String String) (db : Db)
    (input : ResourceInput) :
    (addOrUpdateResourceWithMerge mergeChat db input).1.articleResources =
      db.articleResources := by
  unfold addOrUpdateResourceWithMerge
  dsimp only
  split
  · rw [addOrUpdateResource_artRes, incrementResourceMentionCount_artRes]
    split
    · split
      · rw [updateResourceDescription_artRes]
      · rfl
    · rfl
  · rw [addOrUpdateResource_artRes]

/-- A row present after linkArticleResource was present before or is the
freshly linked row. -/
lemma linkArticleResource_mem (db : Db) (input : ArticleResourceInput)
    (l : ArticleResourceRow)
    (h : l ∈ (linkArticleResource db input).1.articleResources) :
    l ∈ db.articleResources ∨
      l = { article_id := input.article_id, resource_id := input.resource_id,
            context := input.context, relevance := input.relevance.getD "mentioned" } := by
  unfold linkArticleResource at h
  split at h
  · exact Or.inl h
  · rcases List.mem_append.mp h with hold | hnew
    · exact Or.inl hold
    · exact Or.inr (List.mem_singleton.mp hnew)

/-- The guarded tag step does not touch the article_resources table. -/
lemma resourceTagStep_artRes (db : Db) (rid : Nat) (tags : Option (List String)) :
    (resourceTagStep db rid tags).articleResources = db.articleResources := by
  unfold resourceTagStep
  cases tags with
  | none => rfl
  | some ts =>
      dsimp only
      split
      · rw [saveResourceTags_artRes]
      · rfl

/-- Every article-resource link present after the persistence loop was
present before or carries relevance "main". -/
lemma saveResources_links :
    ∀ (rs : List ExtractedResource) (mergeChat : String → String → Except String String)
      (db : Db) (articleId : Nat),
      ∀ l ∈ (saveResources mergeChat db articleId rs).articleResources,
        l ∈ db.articleResources ∨ l.relevance = "main"
  | [], _, _, _, _, h => Or.inl h
  | res :: rest, mergeChat, db, articleId, l, h => by
      unfold saveResources at h
      by_cases hrel : res.relevance ≠ "main"
      · rw [if_pos hrel] at h
        exact saveResources_links rest mergeChat db articleId l h
      · rw [if_neg hrel] at h
        have hmain : res.relevance = "main" := not_not.mp hrel
        dsimp only at h
        rcases saveResources_links rest mergeChat _ articleId l h with h3 | h3
        · rw [resourceTagStep_artRes] at h3
          rcases linkArticleResource_mem _ _ l h3 with h4 | h4
          · rw [addOrUpdateResourceWithMerge_artRes] at h4
            exact Or.inl h4
          · right
            rw [h4]
            show (some res.relevance).getD "mentioned" = "main"
            rw [Option.getD_some, hmain]
        · exact Or.inr h3

/-- C4: in the summarize phase, only extracted resources with relevance
"main" are persisted as article-resource links (every link created by the
persistence loop carries relevance "main", so "mentioned" and "compared"
entries produce none); on a response with one resource of each relevance,
exactly one link — for the "main" resource — is created. -/
theorem saveResources_mainOnly :
    (∀ (mergeChat : String → String → Except String String) (db : Db)
        (articleId : Nat) (rs : List ExtractedResource),
      ∀ l ∈ (saveResources mergeChat db articleId rs).articleResources,
        l ∈ db.articleResources ∨ l.relevance = "main") ∧
    ((saveResources mergeUnused emptyDb 7 relevanceResources).articleResources.map
        (fun l => (l.article_id, l.relevance)) = [(7, "main")]) ∧
    ((saveResources mergeUnused emptyDb 7 relevanceResources).resources.map
        ResourceRow.name = ["MainTool"]) :=
  ⟨fun mergeChat db articleId rs => saveResources_links rs mergeChat db articleId,
   by decide, by decide⟩

/-- C4 witness: the only link of the concrete run, through the general part. -/
theorem saveResources_mainOnly_witness :
    ({ article_id := 7, resource_id := 1, context := none,
       relevance := "main" } : ArticleResourceRow) ∈ emptyDb.articleResources ∨
    ({ article_id := 7, resource_id := 1, context := none,
       relevance := "main" } : ArticleResourceRow).relevance = "main" :=
  saveResources_mainOnly.1 mergeUnused emptyDb 7 relevanceResources
    { article_id := 7, resource_id := 1, context := none, relevance := "main" }
    (by decide)

/-- C5: evaluating a re-sighting at the failing input.  Normalization maps
"Claude by Anthropic" to "Claude" and the lookup resolves to the single
existing ("Claude", "tool") row — no second row is created — but the row's
mention_count goes from 1 to 3: the re-sighting increments it twice (once in
incrementResourceMentionCount and once more inside addOrUpdateResource),
not once as the spec states. -/
theorem resourceMerge_doubleIncrement :
    normalizeResourceName "Claude by Anthropic" = "Claude" ∧
    claudeResult.1.resources.map ResourceRow.name = ["Claude"] ∧
    claudeResult.1.resources.map ResourceRow.mention_count = [3] := by decide

/-! ### Lemmas for the analyzeArticles control flow -/

/-- Writing a snapshot leaves every row's analysis fields unchanged. -/
lemma saveArticleSnapshot_analysis (db : Db) (aid : Nat) (t : String) :
    (saveArticleSnapshot db aid t).articles.map analysisState =
      db.articles.map analysisState := by
  show (db.articles.map _).map analysisState = _
  rw [List.map_map]
  apply List.map_congr_left
  intro a _
  show analysisState (if a.id == aid then _ else a) = analysisState a
  split <;> rfl

/-- The snapshot prologue leaves every row's analysis fields unchanged. -/
lemma prepSnapshots_analysis (h : String → String) :
    ∀ (l : List Article) (db : Db),
      ((prepSnapshots h db l).1).articles.map analysisState =
        db.articles.map analysisState
  | [], _ => rfl
  | a :: rest, db => by
      unfold prepSnapshots
      split
      · dsimp only
        rw [prepSnapshots_analysis h rest (saveArticleSnapshot db a.id (h (a.content.getD "")))]
        exact saveArticleSnapshot_analysis db a.id _
      · exact prepSnapshots_analysis h rest db

/-- The snapshot prologue keeps the in-memory article ids. -/
lemma prepSnapshots_ids (h : String → String) :
    ∀ (l : List Article) (db : Db),
      ((prepSnapshots h db l).2).map Article.id = l.map Article.id
  | [], _ => rfl
  | a :: rest, db => by
      unfold prepSnapshots
      split
      · dsimp only
        rw [List.map_cons, List.map_cons,
          prepSnapshots_ids h rest (saveArticleSnapshot db a.id (h (a.content.getD "")))]
      · dsimp only
        rw [List.map_cons, List.map_cons, prepSnapshots_ids h rest db]

/-- When a filter response yields no extractable, parseable JSON, the filter
phase of a non-empty batch fails. -/
lemma filterArticles_fail (fc : Except String String)
    (pf : String → Option (List RawFilterItem)) (arts : List Article)
    (content : String) (hne : arts.isEmpty = false) (hchat : fc = Except.ok content)
    (hparse : extractJsonObject content = none ∨
      ∀ js, extractJsonObject content = some js → pf js = none) :
    ∃ e, filterArticles fc pf arts = Except.error e := by
  unfold filterArticles
  rw [if_neg (by rw [hne]; intro hx; cases hx), hchat]
  dsimp only
  rcases hparse with hx | hx
  · rw [hx]
    exact ⟨_, rfl⟩
  · cases hjs : extractJsonObject content with
    | none => exact ⟨_, rfl⟩
    | some js =>
        dsimp only
        rw [hx js hjs]
        exact ⟨_, rfl⟩

/-- C6: if the filter-phase model response contains no extractable, parseable
JSON object, analyzeArticles fails for the whole (non-empty) batch and no
article's analysis fields (is_interesting, interest_reason, summary,
analyzed_at) are written. -/
theorem analyzeArticles_filterFailureAtomic (o : LlmOracles) (db : Db)
    (articles : List Article) (w : Bool) (content : String)
    (hne : articles ≠ [])
    (hchat : o.filterChat = Except.ok content)
    (hparse : extractJsonObject content = none ∨
      ∀ js, extractJsonObject content = some js → o.parseFilter js = none) :
    (∃ e, (analyzeArticles o db articles w).2 = Except.error e) ∧
    ((analyzeArticles o db articles w).1).articles.map analysisState =
      db.articles.map analysisState := by
  have hlen : ((prepSnapshots o.htmlToText db articles).2).length = articles.length := by
    have := congrArg List.length (prepSnapshots_ids o.htmlToText articles db)
    simpa using this
  have hne2 : ((prepSnapshots o.htmlToText db articles).2).isEmpty = false := by
    cases hpe : ((prepSnapshots o.htmlToText db articles).2).isEmpty
    · rfl
    · exfalso
      apply hne
      have h0 : (prepSnapshots o.htmlToText db articles).2 = [] :=
        List.isEmpty_iff.mp hpe
      have hz : articles.length = 0 := by rw [← hlen, h0]; rfl
      exact List.length_eq_zero.mp hz
  obtain ⟨e, he⟩ := filterArticles_fail o.filterChat o.parseFilter
    (prepSnapshots o.htmlToText db articles).2 content hne2 hchat hparse
  constructor
  · refine ⟨e, ?_⟩
    unfold analyzeArticles
    dsimp only
    rw [he]
  · have hstate := prepSnapshots_analysis o.htmlToText articles db
    unfold analyzeArticles
    dsimp only
    rw [he]
    exact hstate

/-- C6 witness: a model refusal without any JSON body fails the one-article
batch and leaves the stored analysis fields untouched. -/
theorem analyzeArticles_filterFailureAtomic_witness :
    (∃ e, (analyzeArticles noJsonOracles oneArticleDb [articleBase] false).2 =
      Except.error e) ∧
    ((analyzeArticles noJsonOracles oneArticleDb [articleBase] false).1).articles.map
        analysisState = oneArticleDb.articles.map analysisState :=
  analyzeArticles_filterFailureAtomic noJsonOracles oneArticleDb [articleBase] false
    "I cannot help with that." (by decide) rfl (Or.inl (by decide))

/-- C7 counterexample: a successfully parsed filter response with an empty
`results` array makes analyzeArticles return no result at all for a
one-article input — the output is not one result per input article. -/
theorem analyzeArticles_dropsMissingEntry :
    (analyzeArticles emptyResultsOracles oneArticleDb [articleBase] true).2 =
      Except.ok ([] : List AnalysisResult) ∧
    [articleBase].length = 1 := ⟨rfl, rfl⟩

/-- Every branch of the per-entry body reports the filter entry's article id. -/
lemma analyzeOne_articleId (o : LlmOracles) (w : Bool) (db : Db) (filt : FilterOut)
    (article : Article) :
    ((analyzeOne o w db filt article).2).articleId = filt.articleId := by
  unfold analyzeOne
  split
  · split
    · rfl
    · split <;> rfl
  · rfl

/-- If some in-memory article carries id `x`, the loop's lookup finds one. -/
lemma find?_id_isSome :
    ∀ (arts : List Article) (x : Nat), x ∈ arts.map Article.id →
      ((arts.find? (fun a => a.id == x)).isSome = true)
  | [], _, h => absurd h (List.not_mem_nil _)
  | a :: rest, x, h => by
      by_cases ha : (a.id == x) = true
      · rw [findq_cons_true a rest (fun a => a.id == x) ha]
        rfl
      · have ha2 : (a.id == x) = false := by
          cases hb : (a.id == x)
          · rfl
          · exact absurd hb ha
        rw [findq_cons_false a rest (fun a => a.id == x) ha2]
        apply find?_id_isSome rest x
        rcases List.mem_cons.mp h with heq | hmem
        · exfalso
          rw [heq, beq_self_eq_true] at ha2
          exact Bool.noConfusion ha2
        · exact hmem

/-- When every filter entry matches some in-memory article, the loop emits
exactly one result per entry, in order, carrying the entry's article id. -/
lemma analyzeLoop_ids (o : LlmOracles) (w : Bool) (arts : List Article) :
    ∀ (fs : List FilterOut) (db : Db),
      (∀ f ∈ fs, ((arts.find? (fun a => a.id == f.articleId)).isSome = true)) →
      ((analyzeLoop o w arts db fs).2).map AnalysisResult.articleId =
        fs.map FilterOut.articleId
  | [], _, _ => rfl
  | filt :: rest, db, h => by
      obtain ⟨article, harticle⟩ :=
        Option.isSome_iff_exists.mp (h filt (List.mem_cons_self filt rest))
      unfold analyzeLoop
      rw [harticle]
      dsimp only
      rw [List.map_cons, analyzeOne_articleId,
        analyzeLoop_ids o w arts rest _ (fun f hf => h f (List.mem_cons_of_mem filt hf)),
        List.map_cons]

/-- C7 (amended): analyzeArticles emits exactly one result per parsed
filter-response entry whose id matches an input article (entries follow the
response, not the input); hence when the parsed response lists exactly the
input articles' ids, the call succeeds with one result per input article —
the output has the input's length and each input article owns exactly one
result. -/
theorem analyzeArticles_oneResultPerEntry (o : LlmOracles) (db : Db)
    (articles : List Article) (w : Bool) (content : String)
    (items : List RawFilterItem)
    (hchat : o.filterChat = Except.ok content)
    (hjs : ∃ js, extractJsonObject content = some js ∧ o.parseFilter js = some items)
    (hids : items.map RawFilterItem.id = articles.map Article.id)
    (hnodup : (articles.map Article.id).Nodup) :
    ∃ rs, (analyzeArticles o db articles w).2 = Except.ok rs ∧
      rs.length = articles.length ∧
      ∀ a ∈ articles, (rs.filter (fun r => r.articleId == a.id)).length = 1 := by
  obtain ⟨js, hjs1, hjs2⟩ := hjs
  by_cases hempty : articles = []
  · subst hempty
    exact ⟨[], rfl, rfl, fun a ha => absurd ha (List.not_mem_nil a)⟩
  · have hprepids :
        ((prepSnapshots o.htmlToText db articles).2).map Article.id =
          articles.map Article.id := prepSnapshots_ids o.htmlToText articles db
    have hlen : ((prepSnapshots o.htmlToText db articles).2).length = articles.length := by
      have := congrArg List.length hprepids
      simpa using this
    have hne2 : ((prepSnapshots o.htmlToText db articles).2).isEmpty = false := by
      cases hpe : ((prepSnapshots o.htmlToText db articles).2).isEmpty
      · rfl
      · exact absurd (by rw [← hlen, List.isEmpty_iff.mp hpe]; rfl : articles.length = 0)
          (fun hz => hempty (List.length_eq_zero.mp hz))
    have hfilter : filterArticles o.filterChat o.parseFilter
        (prepSnapshots o.htmlToText db articles).2 =
        Except.ok (items.map (fun r =>
          ({ articleId := r.id, isInteresting := r.interesting,
             reason := r.reason, isNewsletter := r.isNewsletter } : FilterOut))) := by
      unfold filterArticles
      rw [if_neg (by rw [hne2]; intro hx; cases hx), hchat]
      dsimp only
      rw [hjs1]
      dsimp only
      rw [hjs2]
    refine ⟨(analyzeLoop o w (prepSnapshots o.htmlToText db articles).2
        (prepSnapshots o.htmlToText db articles).1
        (items.map (fun r =>
          ({ articleId := r.id, isInteresting := r.interesting,
             reason := r.reason, isNewsletter := r.isNewsletter } : FilterOut)))).2, ?_, ?_, ?_⟩
    · unfold analyzeArticles
      dsimp only
      rw [hfilter]
    · have hmap := analyzeLoop_ids o w (prepSnapshots o.htmlToText db articles).2
        (items.map (fun r =>
          ({ articleId := r.id, isInteresting := r.interesting,
             reason := r.reason, isNewsletter := r.isNewsletter } : FilterOut)))
        (prepSnapshots o.htmlToText db articles).1 ?hfind
      case hfind =>
        intro f hf
        obtain ⟨r, hr, hfr⟩ := List.mem_map.mp hf
        apply find?_id_isSome
        rw [hprepids, ← hids]
        rw [← hfr]
        exact List.mem_map_of_mem RawFilterItem.id hr
      have := congrArg List.length hmap
      simp only [List.length_map] at this
      rw [this]
      have := congrArg List.length hids
      simpa using this
    · intro a ha
      have hmap := analyzeLoop_ids o w (prepSnapshots o.htmlToText db articles).2
        (items.map (fun r =>
          ({ articleId := r.id, isInteresting := r.interesting,
             reason := r.reason, isNewsletter := r.isNewsletter } : FilterOut)))
        (prepSnapshots o.htmlToText db articles).1 ?hfind2
      case hfind2 =>
        intro f hf
        obtain ⟨r, hr, hfr⟩ := List.mem_map.mp hf
        apply find?_id_isSome
        rw [hprepids, ← hids]
        rw [← hfr]
        exact List.mem_map_of_mem RawFilterItem.id hr
      rw [← List.countP_eq_length_filter]
      have hcount : (analyzeLoop o w (prepSnapshots o.htmlToText db articles).2
            (prepSnapshots o.htmlToText db articles).1
            (items.map (fun r =>
              ({ articleId := r.id, isInteresting := r.interesting,
                 reason := r.reason, isNewsletter := r.isNewsletter } : FilterOut)))).2.countP
            (fun r => r.articleId == a.id) =
          ((analyzeLoop o w (prepSnapshots o.htmlToText db articles).2
            (prepSnapshots o.htmlToText db articles).1
            (items.map (fun r =>
              ({ articleId := r.id, isInteresting := r.interesting,
                 reason := r.reason, isNewsletter := r.isNewsletter } : FilterOut)))).2.map
            AnalysisResult.articleId).countP (fun x => x == a.id) := by
        rw [List.countP_map]
        rfl
      rw [hcount, hmap]
      have hmapids : (items.map (fun r =>
          ({ articleId := r.id, isInteresting := r.interesting,
             reason := r.reason, isNewsletter := r.isNewsletter } : FilterOut))).map
            FilterOut.articleId = articles.map Article.id := by
        rw [List.map_map]
        exact hids
      rw [hmapids]
      have : (articles.map Article.id).countP (fun x => x == a.id) =
          (articles.map Article.id).count a.id := by
        rw [List.count_eq_countP]
      rw [this]
      exact List.count_eq_one_of_mem hnodup (List.mem_map_of_mem Article.id ha)

/-- C7 witness: a response listing exactly the single input article's id
yields exactly one result for it. -/
theorem analyzeArticles_oneResultPerEntry_witness :
    ∃ rs, (analyzeArticles oneEntryOracles oneArticleDb [articleBase] false).2 =
        Except.ok rs ∧
      rs.length = [articleBase].length ∧
      ∀ a ∈ [articleBase], (rs.filter (fun r => r.articleId == a.id)).length = 1 :=
  analyzeArticles_oneResultPerEntry oneEntryOracles oneArticleDb [articleBase] false
    "\x7b\"results\":[...]\x7d"
    [{ id := 1, interesting := false, reason := "r", isNewsletter := none }]
    rfl ⟨"\x7b\"results\":[...]\x7d", by decide, rfl⟩ (by decide) (by decide)

end RssCli
